import Mathlib

/-!
Shallow embedding of the two scripts of this repository: the build
orchestrator (`build.mjs`) and the artifact launcher script appended to it.
JavaScript strings are modelled as `String` / `List Char`; JavaScript
numbers that only ever hold small exact decimals (the progress values,
incremented by 0.1, 0.2, 0.3, 0.5, 1, 2, 5 and clamped with `Math.min`)
are idealised as `ℚ`; process exit codes as `Nat`; the file system and the
outcomes of spawned children are passed in explicitly.
-/

/-- Split a character list at every occurrence of `sep`, mirroring
JavaScript `String.prototype.split` with a single-character separator
(so `"".split` gives `[""]` and a trailing separator yields a trailing
empty piece). -/
def splitOnChar (sep : Char) : List Char → List (List Char)
  | [] => [[]]
  | c :: cs =>
    let rest := splitOnChar sep cs
    if c = sep then [] :: rest
    else
      match rest with
      | [] => [[c]]
      | r :: rs => (c :: r) :: rs

/-- `beginsWith pat l` is true when `pat` is an initial segment of `l`. -/
def beginsWith : List Char → List Char → Bool
  | [], _ => true
  | _ :: _, [] => false
  | p :: ps, c :: cs => p = c && beginsWith ps cs

/-- `containsSub pat l`: does `pat` occur as a contiguous run inside `l`?
Mirrors JavaScript `String.prototype.includes`. -/
def containsSub (pat : List Char) : List Char → Bool
  | [] => beginsWith pat []
  | c :: cs => beginsWith pat (c :: cs) || containsSub pat cs

/-- `strContains s pat` mirrors JavaScript `s.includes(pat)`. -/
def strContains (s pat : String) : Bool :=
  containsSub pat.data s.data

/-- First match of the regular expression `pat([^stop]+)` scanned left to
right: at the first position where the literal `pat` is followed by at
least one character not satisfying `stop`, return the maximal such run;
otherwise keep scanning (as a backtracking regex engine does). -/
def captureAfter (pat : List Char) (stop : Char → Bool) : List Char → Option (List Char)
  | [] => none
  | c :: cs =>
    if beginsWith pat (c :: cs) then
      let cap := ((c :: cs).drop pat.length).takeWhile (fun ch => !(stop ch))
      if cap.isEmpty then captureAfter pat stop cs else some cap
    else captureAfter pat stop cs

/-- JavaScript `String.prototype.trim` on a character list (whitespace
idealised as `Char.isWhitespace`). -/
def trimChars (l : List Char) : List Char :=
  ((l.dropWhile Char.isWhitespace).reverse.dropWhile Char.isWhitespace).reverse

/-- Outcome of a code path that may call `process.exit(status)` before
producing a value. -/
inductive ExitOr (α : Type) where
  | exit (status : Nat)
  | ok (a : α)
deriving DecidableEq, Repr

namespace Launcher

/-- `value.startsWith(q) && value.endsWith(q)` for a single-character
quote `q` (a one-character string satisfies both, as in JavaScript). -/
def quotedBy (q : Char) : List Char → Bool
  | [] => false
  | c :: cs => c = q && cs.getLastD c = q

/-- The quote-stripping step of `loadEnv`: if the value starts and ends
with a double quote, or starts and ends with a single quote, drop the
first and last character (`value.slice(1, -1)`). -/
def stripQuotes (v : List Char) : List Char :=
  if quotedBy '"' v || quotedBy '\x27' v then (v.drop 1).dropLast else v

/-- One line of the `.env` file, as processed by the `forEach` body of
`loadEnv`: trim; skip blank lines and lines starting with `#`; match
the line against `^([^=]+)=(.*)$` (key = maximal non-`=` prefix, which
must be non-empty; value = everything after the first `=`); trim key and
value and strip surrounding quotes from the value. -/
def parseLine (line : List Char) : Option (List Char × List Char) :=
  let l := trimChars line
  if l.isEmpty then none
  else if l.head? = some '#' then none
  else
    match l.dropWhile (fun c => c ≠ '=') with
    | [] => none
    | _ :: after =>
      if (l.takeWhile (fun c => c ≠ '=')).isEmpty then none
      else some (trimChars (l.takeWhile (fun c => c ≠ '=')), stripQuotes (trimChars after))

/-- `config[key] = value` on a JavaScript object modelled as an ordered
association list: overwrite in place if the key exists, else append. -/
def setKey (m : List (String × String)) (k v : String) : List (String × String) :=
  if m.any (fun p => p.1 = k) then m.map (fun p => if p.1 = k then (k, v) else p)
  else m ++ [(k, v)]

/-- The parsing part of `loadEnv`: split the file content on newlines and
fold every line through `parseLine`, accumulating the key/value map. -/
def loadEnvContent (content : String) : List (String × String) :=
  (splitOnChar '\n' content.data).foldl
    (fun cfg lineChars =>
      match parseLine lineChars with
      | some (k, v) => setKey cfg (String.mk k) (String.mk v)
      | none => cfg)
    []

/-- `loadEnv(envPath)`: exit with status 1 when the file does not exist,
otherwise parse its content. -/
def loadEnvFile (envFileExists : Bool) (content : String) : ExitOr (List (String × String)) :=
  if !envFileExists then .exit 1 else .ok (loadEnvContent content)

/-- The launcher's platform lookup `{ win32: 'windows', linux: 'linux',
darwin: 'darwin' }`. -/
def platformMap (platform : String) : Option String :=
  if platform = "win32" then some "windows"
  else if platform = "linux" then some "linux"
  else if platform = "darwin" then some "darwin"
  else none

/-- The launcher's architecture lookup `{ x64: 'amd64', arm64: 'arm64' }`
(note: no `ia32` entry). -/
def archMap (arch : String) : Option String :=
  if arch = "x64" then some "amd64"
  else if arch = "arm64" then some "arm64"
  else none

/-- The executable file name computed by `getExecutablePath`:
`new-api-<platformName>-<archName>`, with `.exe` appended exactly when the
host platform is `win32`; `none` when either lookup misses. -/
def exeNameFor (platform arch : String) : Option String :=
  match platformMap platform, archMap arch with
  | some platformName, some archName =>
    some (if platform = "win32"
      then "new-api-" ++ platformName ++ "-" ++ archName ++ ".exe"
      else "new-api-" ++ platformName ++ "-" ++ archName)
  | _, _ => none

/-- `getExecutablePath()`: exit 1 on an unsupported platform/architecture
pair, exit 1 when no file exists at the computed name, otherwise return
the name. `binExists` stands for the file system's `existsSync`. -/
def getExecutablePath (platform arch : String) (binExists : String → Bool) : ExitOr String :=
  match exeNameFor platform arch with
  | none => .exit 1
  | some name => if binExists name then .ok name else .exit 1

/-- What the launcher has done by the time a child process could be
spawned: either it already exited, or it reached the `spawn` call. -/
inductive LaunchStep where
  | exitBeforeSpawn (status : Nat)
  | spawnChild (exeName : String)
deriving DecidableEq, Repr

/-- The world the launcher script runs in. -/
structure LauncherWorld where
  envFileExists : Bool
  envContent : String
  platform : String
  arch : String
  binExists : String → Bool

/-- The launcher's top-level sequence up to the `spawn` call: `loadEnv`
(exits 1 if the `.env` file is missing), then `getExecutablePath` (exits 1
on unsupported platform or missing binary), then spawn. -/
def launcherPreSpawn (w : LauncherWorld) : LaunchStep :=
  match loadEnvFile w.envFileExists w.envContent with
  | .exit s => .exitBeforeSpawn s
  | .ok _ =>
    match getExecutablePath w.platform w.arch w.binExists with
    | .exit s => .exitBeforeSpawn s
    | .ok exeName => .spawnChild exeName

/-- How the spawned child ended, as delivered to `child.on('exit', (code,
signal) => ...)`: a normal exit carries a numeric code, a signal death
carries a signal name and a `null` code. -/
inductive ChildEnd where
  | exitedWith (code : Nat)
  | killedBy (signal : String)
deriving DecidableEq, Repr

/-- JavaScript `x || 0` applied to the nullable exit code. -/
def jsOrZero : Option Nat → Nat
  | some c => if c = 0 then 0 else c
  | none => 0

/-- The launcher's own exit status chosen by the exit handler:
`process.exit(code || 0)`. -/
def launcherExitStatus : ChildEnd → Nat
  | .exitedWith code => jsOrZero (some code)
  | .killedBy _ => jsOrZero none

end Launcher

namespace BuildScript

/-- The mutable display state of one process-runner invocation:
`progressValue` and `lastStatus` from `execWithProgress`. -/
structure RunnerState where
  progressValue : ℚ
  lastStatus : String
deriving DecidableEq, Repr

/-- The per-line classifier of `execWithProgress` (the body of the `for`
loop in its `parseOutput`): an `if`/`else if` chain of substring tests,
each nudging `progressValue` toward a phase-specific ceiling and possibly
rewriting `lastStatus`. The `reify:` branch extracts the capture of
`/reify:([^:]+)/`, trims it and keeps at most 25 characters. -/
def npmClassifyLine (s : RunnerState) (line : String) : RunnerState :=
  if strContains line "reify:" then
    let status :=
      match captureAfter ("reify:".data) (fun c => c = ':') line.data with
      | some cap => String.mk ((trimChars cap).take 25)
      | none => s.lastStatus
    { progressValue := min 95 (s.progressValue + 1/2), lastStatus := status }
  else if strContains line "timing" then
    { s with progressValue := min 95 (s.progressValue + 3/10) }
  else if strContains line "added" || strContains line "packages" then
    { progressValue := 98, lastStatus := "完成安装" }
  else if strContains line "idealTree" || strContains line "buildIdeal" then
    { progressValue := min 30 (s.progressValue + 2), lastStatus := "解析依赖树..." }
  else if strContains line "diffTrees" then
    { progressValue := min 40 (s.progressValue + 1), lastStatus := "计算差异..." }
  else if strContains line "fetch" then
    { progressValue := min 80 (s.progressValue + 1/5), lastStatus := "下载包..." }
  else s

/-- `parseOutput` of `execWithProgress`: split the chunk on newlines,
drop empty lines (`filter(Boolean)`), and run the classifier on each.
The trailing `progress.update` call only redraws the display. -/
def npmParseOutput (s : RunnerState) (chunk : String) : RunnerState :=
  (((splitOnChar '\n' chunk.data).filter (fun l => !l.isEmpty)).map String.mk).foldl
    npmClassifyLine s

/-- An observable event during one runner invocation: a chunk of child
stdout/stderr, or one tick of the 200ms/300ms interval timer. -/
inductive RunnerEvent where
  | output (chunk : String)
  | tick
deriving DecidableEq, Repr

/-- One event step of `execWithProgress`: output chunks go through
`parseOutput`; a timer tick adds 0.1 while the value is below 95. -/
def npmStep (s : RunnerState) : RunnerEvent → RunnerState
  | .output chunk => npmParseOutput s chunk
  | .tick =>
    if s.progressValue < 95 then { s with progressValue := s.progressValue + 1/10 } else s

/-- How the spawned child concluded: the `close` event with a nullable
exit code (`null` when the child was killed by a signal), or the `error`
event (the command failed to spawn). -/
inductive ChildOutcome where
  | closed (code : Option Int)
  | errored (msg : String)
deriving DecidableEq, Repr

/-- The value a runner invocation settles to: the final display state and
the boolean the promise resolves with (the promise always resolves, it has
no rejection path). -/
structure RunResult where
  finalValue : ℚ
  finalStatus : String
  result : Bool
deriving DecidableEq, Repr

/-- `execWithProgress`: fold the interleaved output/timer events over the
display state, then settle according to the child's conclusion — resolve
`true` exactly on `close` with code 0 (after `progress.complete`), resolve
`false` on any other close code and on a spawn error. -/
def execWithProgress (events : List RunnerEvent) (outcome : ChildOutcome) : RunResult :=
  let s := events.foldl npmStep { progressValue := 0, lastStatus := "" }
  match outcome with
  | .closed code =>
    if code = some 0 then { finalValue := 100, finalStatus := "安装完成", result := true }
    else { finalValue := s.progressValue, finalStatus := s.lastStatus, result := false }
  | .errored _ => { finalValue := s.progressValue, finalStatus := s.lastStatus, result := false }

/-- The display state of `execGoWithProgress`, which additionally buffers
all output so it can be echoed on failure. -/
structure GoRunnerState where
  progressValue : ℚ
  lastStatus : String
  outputBuffer : String
deriving DecidableEq, Repr

/-- `parseOutput` of `execGoWithProgress`: append the chunk to the buffer,
then classify the whole chunk — `go: downloading` extracts the capture of
`/go: downloading ([^\s]+)/`, keeps the part after the last `/` truncated
to 25 characters (falling back to a fixed label when that part is empty),
and bumps the value by 2 toward 90; `go: finding` bumps by 5 toward 30. -/
def goParseOutput (s : GoRunnerState) (chunk : String) : GoRunnerState :=
  let buf := s.outputBuffer ++ chunk
  if strContains chunk "go: downloading" then
    let status :=
      match captureAfter ("go: downloading ".data) Char.isWhitespace chunk.data with
      | some cap =>
        let lastPart := (splitOnChar '/' cap).getLastD []
        if lastPart.isEmpty then "下载模块..." else String.mk (lastPart.take 25)
      | none => s.lastStatus
    { progressValue := min 90 (s.progressValue + 2), lastStatus := status, outputBuffer := buf }
  else if strContains chunk "go: finding" then
    { progressValue := min 30 (s.progressValue + 5), lastStatus := "解析模块...", outputBuffer := buf }
  else { s with outputBuffer := buf }

/-- One event step of `execGoWithProgress`: output chunks go through its
`parseOutput`; a timer tick adds 0.2 while the value is below 95. -/
def goStep (s : GoRunnerState) : RunnerEvent → GoRunnerState
  | .output chunk => goParseOutput s chunk
  | .tick =>
    if s.progressValue < 95 then { s with progressValue := s.progressValue + 1/5 } else s

/-- `execGoWithProgress`: same settlement logic as `execWithProgress` —
resolve `true` exactly on `close` with code 0; on any other close code
echo the buffered output and resolve `false`; resolve `false` on a spawn
error. -/
def execGoWithProgress (events : List RunnerEvent) (outcome : ChildOutcome) : RunResult :=
  let s := events.foldl goStep { progressValue := 0, lastStatus := "", outputBuffer := "" }
  match outcome with
  | .closed code =>
    if code = some 0 then { finalValue := 100, finalStatus := "完成", result := true }
    else { finalValue := s.progressValue, finalStatus := s.lastStatus, result := false }
  | .errored _ => { finalValue := s.progressValue, finalStatus := s.lastStatus, result := false }

/-- The `osMap` of `buildBackend`: `{ win32: 'windows', darwin: 'darwin',
linux: 'linux' }`. -/
def osMap (targetOS : String) : Option String :=
  if targetOS = "win32" then some "windows"
  else if targetOS = "darwin" then some "darwin"
  else if targetOS = "linux" then some "linux"
  else none

/-- The `archMap` of `buildBackend`: `{ x64: 'amd64', arm64: 'arm64',
ia32: '386' }` (unlike the launcher's lookup, this one has `ia32`). -/
def archMap (targetArch : String) : Option String :=
  if targetArch = "x64" then some "amd64"
  else if targetArch = "arm64" then some "arm64"
  else if targetArch = "ia32" then some "386"
  else none

/-- `osMap[targetOS] || targetOS`. -/
def goosOf (targetOS : String) : String :=
  (osMap targetOS).getD targetOS

/-- `archMap[targetArch] || targetArch`. -/
def goarchOf (targetArch : String) : String :=
  (archMap targetArch).getD targetArch

/-- The output binary name computed by `buildBackend`:
`new-api-<goos>-<goarch>` with `.exe` appended when `goos` is
`windows`. -/
def backendBinaryName (targetOS targetArch : String) : String :=
  let goos := goosOf targetOS
  let goarch := goarchOf targetArch
  if goos = "windows" then "new-api-" ++ goos ++ "-" ++ goarch ++ ".exe"
  else "new-api-" ++ goos ++ "-" ++ goarch

/-- One cross-compilation target, in the node-style names the script's
fixed list uses (`win32`/`darwin`/`linux`, `x64`/`arm64`); `buildBackend`
maps them to `windows|darwin|linux` / `amd64|arm64`. -/
structure Target where
  os : String
  arch : String
deriving DecidableEq, Repr

/-- The fixed six-entry target list of `crossCompile`, in source order
(the `desc` display field is omitted). After mapping these are
linux/amd64, linux/arm64, windows/amd64, windows/arm64, darwin/amd64,
darwin/arm64. -/
def targets : List Target :=
  [⟨"linux", "x64"⟩, ⟨"linux", "arm64"⟩,
   ⟨"win32", "x64"⟩, ⟨"win32", "arm64"⟩,
   ⟨"darwin", "x64"⟩, ⟨"darwin", "arm64"⟩]

/-- The `for (const target of targets)` loop of `crossCompile`, threaded
over the running `successCount`: each iteration awaits one `buildBackend`
call (its outcome given by the oracle `backendResult`) and increments the
count on success; no outcome ever stops the iteration. Returns the list
of targets passed to `buildBackend`, in call order, and the final count. -/
def crossLoop (backendResult : Target → Bool) : List Target → Nat → List Target × Nat
  | [], successCount => ([], successCount)
  | t :: ts, successCount =>
    let result := backendResult t
    let successCount' := if result then successCount + 1 else successCount
    let rest := crossLoop backendResult ts successCount'
    (t :: rest.1, rest.2)

/-- The observable outcome of one `crossCompile` run. -/
structure CrossRun where
  invocations : List Target
  successCount : Nat
  result : Bool
deriving DecidableEq, Repr

/-- `crossCompile()`: run `buildWeb` once (its outcome given by
`webResult`); on failure return `false` with no backend invocation;
otherwise run the loop over the fixed target list starting from count 0
and return `successCount === targets.length`. -/
def crossCompile (webResult : Bool) (backendResult : Target → Bool) : CrossRun :=
  if webResult then
    let run := crossLoop backendResult targets 0
    { invocations := run.1, successCount := run.2,
      result := run.2 == targets.length }
  else { invocations := [], successCount := 0, result := false }

/-- The observable outcome of one `buildAll` run: how many times
`buildBackend` was invoked, and the returned boolean. -/
structure BuildAllRun where
  backendInvocations : Nat
  result : Bool
deriving DecidableEq, Repr

/-- `buildAll()`: await `buildWeb()`; if it failed return `false` without
touching `buildBackend`; otherwise await one `buildBackend()` call and
return its outcome (the trailing banner printing does not change it). -/
def buildAll (webResult backendResult : Bool) : BuildAllRun :=
  if !webResult then { backendInvocations := 0, result := false }
  else if !backendResult then { backendInvocations := 1, result := false }
  else { backendInvocations := 1, result := true }

end BuildScript

/-- Every character of the trimmed list occurs in the original list. -/
theorem mem_trimChars {c : Char} {l : List Char} (h : c ∈ trimChars l) : c ∈ l := by
  unfold trimChars at h
  have h1 := List.mem_reverse.mp h
  have h2 := (List.dropWhile_sublist Char.isWhitespace).subset h1
  have h3 := List.mem_reverse.mp h2
  exact (List.dropWhile_sublist Char.isWhitespace).subset h3

/-- The cross-compile loop calls `buildBackend` on exactly the given list
of targets, in order, whatever the per-target outcomes are. -/
theorem crossLoop_invocations (f : BuildScript.Target → Bool) :
    ∀ (l : List BuildScript.Target) (acc : Nat),
      (BuildScript.crossLoop f l acc).1 = l := by
  intro l
  induction l with
  | nil => intro acc; rfl
  | cons t ts ih => intro acc; simp [BuildScript.crossLoop, ih]

/-- The cross-compile loop's final count is the starting count plus the
number of targets the oracle reports as successful. -/
theorem crossLoop_successCount (f : BuildScript.Target → Bool) :
    ∀ (l : List BuildScript.Target) (acc : Nat),
      (BuildScript.crossLoop f l acc).2 = acc + l.countP f := by
  intro l
  induction l with
  | nil => intro acc; simp [BuildScript.crossLoop]
  | cons t ts ih =>
    intro acc
    simp only [BuildScript.crossLoop, ih, List.countP_cons]
    by_cases h : f t = true
    · rw [if_pos h, if_pos h]
      omega
    · rw [if_neg h, if_neg h]
      omega

/-- C1 counterexample: when the child is terminated by a signal (so the
`exit` event delivers a `null` code), `process.exit(code || 0)` makes the
launcher exit with status 0 — not with a non-zero status as claimed. -/
theorem launcher_signal_exit_cex :
    Launcher.launcherExitStatus (Launcher.ChildEnd.killedBy "SIGTERM") = 0 ∧
    ¬ Launcher.launcherExitStatus (Launcher.ChildEnd.killedBy "SIGTERM") ≠ 0 :=
  ⟨rfl, fun h => h rfl⟩

/-- C1 (amended): when the child exits normally the launcher's exit
status equals the child's exit code; when the child is terminated by a
signal the launcher exits with status 0 (because `code || 0` maps the
`null` code to 0). -/
theorem launcher_exit_relay_amended :
    (∀ code : Nat,
      Launcher.launcherExitStatus (Launcher.ChildEnd.exitedWith code) = code) ∧
    (∀ sig : String,
      Launcher.launcherExitStatus (Launcher.ChildEnd.killedBy sig) = 0) := by
  constructor
  · intro code
    by_cases h : code = 0 <;> simp [Launcher.launcherExitStatus, Launcher.jsOrZero, h]
  · intro sig
    rfl

/-- C2: after a successful web build, `crossCompile`'s `successCount` is
exactly the number of the six fixed targets for which `buildBackend`
returned true, it never exceeds 6, and the overall return value is true
precisely when all six targets succeeded. -/
theorem crossCompile_successCount_spec (f : BuildScript.Target → Bool) :
    (BuildScript.crossCompile true f).successCount = BuildScript.targets.countP f ∧
    (BuildScript.crossCompile true f).successCount ≤ 6 ∧
    ((BuildScript.crossCompile true f).result = true ↔
      ∀ t ∈ BuildScript.targets, f t = true) := by
  have hcount : (BuildScript.crossCompile true f).successCount
      = BuildScript.targets.countP f := by
    simp [BuildScript.crossCompile, crossLoop_successCount]
  refine ⟨hcount, ?_, ?_⟩
  · rw [hcount]
    calc BuildScript.targets.countP f ≤ BuildScript.targets.length :=
          List.countP_le_length f
      _ = 6 := rfl
  · have hres : (BuildScript.crossCompile true f).result
        = ((BuildScript.crossCompile true f).successCount == BuildScript.targets.length) := by
      simp [BuildScript.crossCompile]
    rw [hres, hcount, beq_iff_eq]
    exact List.countP_eq_length

/-- C2 witness: with a backend oracle that always succeeds, the cross
compile run reports overall success. -/
theorem crossCompile_successCount_spec_witness :
    (BuildScript.crossCompile true (fun _ => true)).result = true :=
  (crossCompile_successCount_spec (fun _ => true)).2.2.mpr (fun _ _ => rfl)

/-- C3: after a successful web build, `crossCompile` invokes
`buildBackend` once per entry of the fixed six-target list, in order,
whatever the per-target outcomes are — no failure aborts the loop. -/
theorem crossCompile_each_target_once (f : BuildScript.Target → Bool) :
    (BuildScript.crossCompile true f).invocations = BuildScript.targets ∧
    ∀ t ∈ BuildScript.targets,
      (BuildScript.crossCompile true f).invocations.count t = 1 := by
  have hinv : (BuildScript.crossCompile true f).invocations = BuildScript.targets := by
    simp [BuildScript.crossCompile, crossLoop_invocations]
  refine ⟨hinv, ?_⟩
  intro t ht
  rw [hinv]
  revert t
  decide

/-- C3 witness: even with a backend oracle that always fails, the first
target of the list is attempted exactly once. -/
theorem crossCompile_each_target_once_witness :
    (BuildScript.crossCompile true (fun _ => false)).invocations.count
      ⟨"linux", "x64"⟩ = 1 :=
  (crossCompile_each_target_once (fun _ => false)).2 ⟨"linux", "x64"⟩ (by decide)

/-- C4: both process runners always settle to a boolean (the promise has
no rejection path in the model, which is total): the result is `true`
exactly when the child closed with exit code 0; any non-zero or `null`
close code, and any spawn error, yield `false`. -/
theorem runner_resolves_iff_exit_zero (events : List BuildScript.RunnerEvent)
    (o : BuildScript.ChildOutcome) :
    ((BuildScript.execWithProgress events o).result = true ↔
      o = BuildScript.ChildOutcome.closed (some 0)) ∧
    ((BuildScript.execGoWithProgress events o).result = true ↔
      o = BuildScript.ChildOutcome.closed (some 0)) := by
  cases o with
  | closed code =>
    by_cases h : code = some 0 <;>
      simp [BuildScript.execWithProgress, BuildScript.execGoWithProgress, h]
  | errored msg =>
    simp [BuildScript.execWithProgress, BuildScript.execGoWithProgress]

/-- C4 witness: a child that closes with code 0 makes `execWithProgress`
resolve to true. -/
theorem runner_resolves_iff_exit_zero_witness :
    (BuildScript.execWithProgress [] (BuildScript.ChildOutcome.closed (some 0))).result
      = true :=
  (runner_resolves_iff_exit_zero [] (BuildScript.ChildOutcome.closed (some 0))).1.mpr rfl

/-- C5: two runs of either process runner whose children have the same
spawn/exit outcome resolve to the same boolean, however different their
stdout/stderr chunks and timer interleavings are — output classification
touches only the displayed value and label, never the result. -/
theorem runner_result_ignores_output (e₁ e₂ : List BuildScript.RunnerEvent)
    (o : BuildScript.ChildOutcome) :
    (BuildScript.execWithProgress e₁ o).result
      = (BuildScript.execWithProgress e₂ o).result ∧
    (BuildScript.execGoWithProgress e₁ o).result
      = (BuildScript.execGoWithProgress e₂ o).result := by
  cases o with
  | closed code =>
    by_cases h : code = some 0 <;>
      simp [BuildScript.execWithProgress, BuildScript.execGoWithProgress, h]
  | errored msg =>
    simp [BuildScript.execWithProgress, BuildScript.execGoWithProgress]

/-- C6: when the web build fails, `buildAll` returns false with zero
`buildBackend` invocations; in general the backend build is attempted
exactly once when the web build succeeds and never otherwise. -/
theorem buildAll_short_circuit (b : Bool) :
    (BuildScript.buildAll false b).backendInvocations = 0 ∧
    (BuildScript.buildAll false b).result = false ∧
    ∀ w : Bool, (BuildScript.buildAll w b).backendInvocations
      = if w then 1 else 0 := by
  refine ⟨rfl, rfl, ?_⟩
  intro w
  cases w <;> cases b <;> rfl

/-- C7: `loadEnv` maps `PORT="8080"` to the entry `PORT ↦ 8080` with the
matching quotes stripped (single quotes likewise); a comment line and a
blank line contribute no entries; and any line without `=` is skipped
while the remaining lines still load (the concrete file below has the
malformed line in the middle and still yields both surrounding keys). -/
theorem loadEnv_parsing_spec :
    Launcher.loadEnvContent "PORT=\"8080\"\n# comment\n\nmalformedline\nTZ=UTC"
      = [("PORT", "8080"), ("TZ", "UTC")] ∧
    Launcher.parseLine ("PORT=\"8080\"".data) = some ("PORT".data, "8080".data) ∧
    Launcher.parseLine ("PORT=\x278080\x27".data) = some ("PORT".data, "8080".data) ∧
    Launcher.parseLine ("# comment".data) = none ∧
    Launcher.parseLine ("   ".data) = none ∧
    (∀ line : List Char, (∀ c ∈ line, c ≠ '=') → Launcher.parseLine line = none) := by
  refine ⟨by decide, by decide, by decide, by decide, by decide, ?_⟩
  intro line h
  have hnil : (trimChars line).dropWhile (fun c => c ≠ '=') = [] := by
    rw [List.dropWhile_eq_nil_iff]
    intro c hc
    exact decide_eq_true (h c (mem_trimChars hc))
  simp only [decide_not] at hnil
  by_cases hA : (trimChars line).isEmpty
  · simp [Launcher.parseLine, hA]
  · by_cases hB : (trimChars line).head? = some '#'
    · simp [Launcher.parseLine, hA, hB]
    · simp [Launcher.parseLine, hA, hB, hnil]

/-- C7 witness: the malformed line itself parses to no entry. -/
theorem loadEnv_parsing_spec_witness :
    Launcher.parseLine ("malformedline".data) = none :=
  loadEnv_parsing_spec.2.2.2.2.2 ("malformedline".data) (by decide)

/-- C8: whenever the configuration file does not exist, the launcher exits
with status 1 before reaching the spawn call. -/
theorem launcher_missing_env_exits (w : Launcher.LauncherWorld)
    (h : w.envFileExists = false) :
    Launcher.launcherPreSpawn w = Launcher.LaunchStep.exitBeforeSpawn 1 := by
  simp [Launcher.launcherPreSpawn, Launcher.loadEnvFile, h]

/-- C8 witness: a concrete world with the configuration file absent. -/
theorem launcher_missing_env_exits_witness :
    Launcher.launcherPreSpawn ⟨false, "", "linux", "x64", fun _ => true⟩
      = Launcher.LaunchStep.exitBeforeSpawn 1 :=
  launcher_missing_env_exits ⟨false, "", "linux", "x64", fun _ => true⟩ rfl

/-- C9: the launcher's executable locator (a pure function of host OS and
architecture in this embedding) yields exactly `new-api-windows-amd64.exe`
for host `(win32, x64)` and exactly `new-api-linux-arm64`, with no
extension, for host `(linux, arm64)`. -/
theorem exeNameFor_exact_names :
    Launcher.exeNameFor "win32" "x64" = some "new-api-windows-amd64.exe" ∧
    Launcher.exeNameFor "linux" "arm64" = some "new-api-linux-arm64" :=
  ⟨by decide, by decide⟩

/-- C10: the launcher's architecture lookup knows only `x64` and `arm64`:
for any other architecture (such as `ia32`) `getExecutablePath` exits with
status 1, and the launcher never reaches the spawn call — even though the
build pipeline's own `archMap` maps `ia32` to a `386` artifact name. -/
theorem launcher_arch_lookup_gap :
    (∀ a : String, a ≠ "x64" → a ≠ "arm64" → Launcher.archMap a = none) ∧
    (∀ (p a : String) (fe : String → Bool), a ≠ "x64" → a ≠ "arm64" →
      Launcher.getExecutablePath p a fe = ExitOr.exit 1) ∧
    (∀ w : Launcher.LauncherWorld, w.arch ≠ "x64" → w.arch ≠ "arm64" →
      Launcher.launcherPreSpawn w = Launcher.LaunchStep.exitBeforeSpawn 1) ∧
    BuildScript.archMap "ia32" = some "386" := by
  have harch : ∀ a : String, a ≠ "x64" → a ≠ "arm64" → Launcher.archMap a = none := by
    intro a h1 h2
    simp [Launcher.archMap, h1, h2]
  have hget : ∀ (p a : String) (fe : String → Bool), a ≠ "x64" → a ≠ "arm64" →
      Launcher.getExecutablePath p a fe = ExitOr.exit 1 := by
    intro p a fe h1 h2
    have hname : Launcher.exeNameFor p a = none := by
      unfold Launcher.exeNameFor
      rw [harch a h1 h2]
      cases hp : Launcher.platformMap p <;> rfl
    simp [Launcher.getExecutablePath, hname]
  refine ⟨harch, hget, ?_, by decide⟩
  intro w h1 h2
  unfold Launcher.launcherPreSpawn
  cases hev : w.envFileExists with
  | false => simp [Launcher.loadEnvFile, hev]
  | true => simp [Launcher.loadEnvFile, hev, hget w.platform w.arch w.binExists h1 h2]

/-- C10 witness: a concrete `ia32` host with the configuration file
present still exits before the spawn call. -/
theorem launcher_arch_lookup_gap_witness :
    Launcher.launcherPreSpawn ⟨true, "", "linux", "ia32", fun _ => true⟩
      = Launcher.LaunchStep.exitBeforeSpawn 1 :=
  launcher_arch_lookup_gap.2.2.1 ⟨true, "", "linux", "ia32", fun _ => true⟩
    (by decide) (by decide)
